import Mathlib

/-!
Shallow embedding of `src/StringUtilities.ts` (the composite-string formatting
engine of the repository): the placeholder regex scanner, the `format`
overloads (mapping / callback substitution source), alignment padding, and
`formatValue` (numeric format specifiers).

Modelling conventions:
* JS numbers are modelled as `Int` (the claims under verification only involve
  integer-valued numbers; float behaviour is out of the embedded fragment).
* JS strings are Lean `String`s; lengths are counted in characters.
* Thrown exceptions are modelled with `Except FmtError`.
* JS runtime builtins used by the source (`parseInt`, `padStart`, `padEnd`,
  `Number.prototype.toString/toExponential/toPrecision/toLocaleString`,
  `String.prototype.toLocaleUpperCase`, `String.prototype.replace` with the
  placeholder regex) are modelled faithfully per their ECMAScript semantics,
  restricted to the integer/ASCII fragment exercised here.  The locale data
  behind `toLocaleString` / `toLocaleUpperCase` is a host capability; it is
  modelled by a small concrete locale table (the Turkic dotted-i uppercase
  special case, and a decimal/group separator table) which captures exactly
  the locale-dependence relevant to the code.
-/

namespace StringUtilities

/-- A resolved substitution value (`unknown` at the TS boundary), as the
closed sum the engine dispatches on via `typeof`: only `number` is
format-aware; strings, `null` and `undefined` take the default branch. -/
inductive Value where
  | num (n : Int)
  | str (s : String)
  | null
  | undef
deriving DecidableEq, Repr

/-- The three error classes thrown by `format` / `formatValue`, plus the
`RangeError` a JS runtime raises from `toPrecision(0)` and the
"should never ever happen" default branch of the numeric switch. -/
inductive FmtError where
  | keyMissing (key : String)
  | invalidAlignment (alignmentString : String)
  | invalidFormat (formatString : String)
  | rangeError
  | internalError
deriving DecidableEq, Repr

/-- One parsed placeholder: the three capture groups of
`formatPlaceholder = /\$\{([^,:}]+?)(?:,([^,:}]*?))?(?::([^}]*?))?\}/g`.
`align = some ""` models a participating-but-empty alignment capture
(template form `${key,}`), `align = none` a non-participating group. -/
structure Placeholder where
  key : String
  align : Option String
  fmt : Option String
deriving DecidableEq, Repr

/-- The polymorphic substitution source: a key-to-value object (own
properties as an association list) or a substitution callback. -/
inductive Sub where
  | mapping (entries : List (String × Value))
  | fn (f : String → Option String → Value)

/-! ## Digit rendering (model of `Number.prototype.toString`) -/

/-- Digit characters as produced by JS number printing (lowercase hex). -/
def digitChar : Nat → Char
  | 0 => '0' | 1 => '1' | 2 => '2' | 3 => '3' | 4 => '4'
  | 5 => '5' | 6 => '6' | 7 => '7' | 8 => '8' | 9 => '9'
  | 10 => 'a' | 11 => 'b' | 12 => 'c' | 13 => 'd' | 14 => 'e' | 15 => 'f'
  | _ => '*'

/-- Fuelled most-significant-first digit expansion in base `b`. -/
def baseChars (b : Nat) : Nat → Nat → List Char → List Char
  | 0, _, acc => acc
  | fuel+1, n, acc =>
      if n < b then digitChar n :: acc
      else baseChars b fuel (n / b) (digitChar (n % b) :: acc)

/-- Decimal digits of a natural number (`n.toString()` for naturals). -/
def natDecChars (n : Nat) : List Char := baseChars 10 (n + 1) n []

/-- Lowercase hexadecimal digits of a natural number (`n.toString(16)`). -/
def natHexChars (n : Nat) : List Char := baseChars 16 (n + 1) n []

/-- `"" + n` for an integer-valued JS number: optional minus sign and the
decimal digits, no padding and no grouping. -/
def intChars (n : Int) : List Char :=
  (if n < 0 then ['-'] else []) ++ natDecChars n.natAbs

/-- JS `ToString` (`"" + value`) on the embedded value sum. -/
def jsToString : Value → String
  | .num n => String.mk (intChars n)
  | .str s => s
  | .null => "null"
  | .undef => "undefined"

/-! ## `parseInt` (model of the global `parseInt` with no radix argument) -/

def isDigitChar (c : Char) : Bool := '0' ≤ c && c ≤ '9'

def isHexDigitChar (c : Char) : Bool :=
  isDigitChar c || ('a' ≤ c && c ≤ 'f') || ('A' ≤ c && c ≤ 'F')

def hexDigitVal (c : Char) : Nat :=
  if isDigitChar c then c.toNat - 48
  else if 'a' ≤ c && c ≤ 'f' then c.toNat - 87
  else c.toNat - 55

/-- ECMAScript StrWhiteSpaceChar (the fragment reachable from templates). -/
def isJsWhitespace (c : Char) : Bool :=
  c == ' ' || c == '\t' || c == '\n' || c == '\r' ||
  c == '\x0b' || c == '\x0c' || c == ' '

def digitsToNat (base : Nat) (ds : List Char) : Nat :=
  ds.foldl (fun acc c => acc * base + hexDigitVal c) 0

/-- `parseInt(s)`: skip whitespace, optional sign, `0x` prefix selects base
16, otherwise greedy decimal digits; `none` models `NaN` (no digits). -/
def jsParseInt (s : String) : Option Int :=
  let l0 := s.data.dropWhile isJsWhitespace
  let p : Int × List Char :=
    match l0 with
    | '-' :: t => (-1, t)
    | '+' :: t => (1, t)
    | t => (1, t)
  let dec : List Char → Option Int := fun l =>
    let ds := l.takeWhile isDigitChar
    if ds = [] then none else some (p.1 * (digitsToNat 10 ds : Nat))
  match p.2 with
  | '0' :: x :: t =>
      if x = 'x' ∨ x = 'X' then
        let ds := t.takeWhile isHexDigitChar
        if ds = [] then none else some (p.1 * (digitsToNat 16 ds : Nat))
      else dec p.2
  | l => dec l

/-! ## `padStart` / `padEnd` with a single-character fill -/

def padStartWith (fill : Char) (target : Nat) (s : String) : String :=
  if target ≤ s.length then s
  else String.mk (List.replicate (target - s.length) fill) ++ s

def padEndWith (fill : Char) (target : Nat) (s : String) : String :=
  if target ≤ s.length then s
  else s ++ String.mk (List.replicate (target - s.length) fill)

/-! ## Locale model (`toLocaleUpperCase` and the `Intl` separator data) -/

/-- Locales whose uppercase mapping sends dotted `i` to `İ` (tr/az tags). -/
def turkicLocale : Option String → Bool
  | none => false
  | some s =>
      match s.data with
      | 't' :: 'r' :: _ => true
      | 'a' :: 'z' :: _ => true
      | _ => false

/-- Default (root-locale) uppercase on the ASCII range. -/
def asciiUpper (c : Char) : Char :=
  if 'a' ≤ c && c ≤ 'z' then Char.ofNat (c.toNat - 32) else c

/-- Locale-sensitive uppercase of one character: only the Turkic dotted-i
rule differs between locales on the character repertoire reachable here. -/
def localeUpperChar (locale : Option String) (c : Char) : Char :=
  if turkicLocale locale && c == 'i' then 'İ' else asciiUpper c

/-- `s.toLocaleUpperCase(locale)`. -/
def toLocaleUpper (locale : Option String) (s : String) : String :=
  String.mk (s.data.map (localeUpperChar locale))

/-- Source helper `UppercaseIf`. -/
def UppercaseIf (value : String) (uppercase : Bool) (locale : Option String) : String :=
  if uppercase then toLocaleUpper locale value else value

/-- Locales rendering the decimal separator as a comma (model table). -/
def germanLocale : Option String → Bool
  | none => false
  | some s =>
      match s.data with
      | 'd' :: 'e' :: _ => true
      | _ => false

def localeDecSep (l : Option String) : Char := if germanLocale l then ',' else '.'

def localeGroupSep (l : Option String) : Char := if germanLocale l then '.' else ','

/-! ## Scientific / precision rendering
(models of `toExponential`, `toPrecision` on integer-valued numbers) -/

/-- Assemble `d.ddd e±k` from a significand digit list (`f` fractional
significand digits follow the leading one). -/
def sciChars (digs : List Char) (f : Nat) (e : Int) : List Char :=
  digs.take 1 ++
  (if f = 0 then [] else '.' :: digs.drop 1) ++
  'e' :: (if e < 0 then '-' else '+') :: natDecChars e.natAbs

/-- Round `m > 0` to `sig ≥ 1` significant decimal digits (ties away from
zero, as ECMA picks the larger candidate); returns the significand digits
and the decimal exponent. Callers guarantee `m` has more than `sig` digits. -/
def roundSig (m sig : Nat) : List Char × Int :=
  let k := (natDecChars m).length
  let p := k - sig
  let pow := 10 ^ p
  let q0 := m / pow
  let q := if pow ≤ 2 * (m % pow) then q0 + 1 else q0
  if q < 10 ^ sig then (natDecChars q, (k : Int) - 1) else (natDecChars (q / 10), (k : Int))

/-- `toExponential(f)` on the magnitude `m`: pad short digit expansions with
trailing zeros, round long ones to `f + 1` significant digits. -/
def expBody (f m : Nat) : List Char :=
  if m = 0 then sciChars (List.replicate (f + 1) '0') f 0
  else
    if (natDecChars m).length ≤ f + 1 then
      sciChars (natDecChars m ++ List.replicate (f + 1 - (natDecChars m).length) '0') f
        (((natDecChars m).length - 1 : Nat) : Int)
    else sciChars (roundSig m (f + 1)).1 f (roundSig m (f + 1)).2

/-- Character list of `n.toExponential(f)` for an integer-valued number. -/
def expChars (f : Nat) (n : Int) : List Char :=
  (if n < 0 then ['-'] else []) ++ expBody f n.natAbs

def toExponentialInt (f : Nat) (n : Int) : String := String.mk (expChars f n)

/-- `toPrecision(p)` (`p ≥ 1`) on the magnitude `m`: fixed notation when the
decimal exponent is below `p`, else scientific with `p` significant digits. -/
def precBody (p m : Nat) : List Char :=
  if m = 0 then '0' :: (if p ≤ 1 then [] else '.' :: List.replicate (p - 1) '0')
  else
    if (natDecChars m).length ≤ p then
      natDecChars m ++
        (if p ≤ (natDecChars m).length then []
         else '.' :: List.replicate (p - (natDecChars m).length) '0')
    else sciChars (roundSig m p).1 (p - 1) (roundSig m p).2

/-- Character list of `n.toPrecision(p)` for an integer-valued number. -/
def precChars (p : Nat) (n : Int) : List Char :=
  (if n < 0 then ['-'] else []) ++ precBody p n.natAbs

def toPrecisionInt (p : Nat) (n : Int) : String := String.mk (precChars p n)

/-! ## `toLocaleString` model (fixed / grouped / percent styles on `Int`) -/

/-- Digit grouping: insert the separator every three digits from the right. -/
def groupGo (sep : Char) : List Char → Nat → List Char
  | [], _ => []
  | c :: rest, i =>
      if 0 < i ∧ i % 3 = 0 then sep :: c :: groupGo sep rest (i + 1)
      else c :: groupGo sep rest (i + 1)

def insertGroupSep (sep : Char) (ds : List Char) : List Char :=
  (groupGo sep ds.reverse 0).reverse

/-- `n.toLocaleString(locale, { minimumFractionDigits, useGrouping: false })`
on an integer-valued number. -/
def fixedChars (locale : Option String) (minFrac : Nat) (n : Int) : List Char :=
  (if n < 0 then ['-'] else []) ++ natDecChars n.natAbs ++
  (if minFrac = 0 then [] else localeDecSep locale :: List.replicate minFrac '0')

/-- `n.toLocaleString(locale, { maximumFractionDigits })` on an
integer-valued number (grouping on; an integer has no fractional digits). -/
def groupChars (locale : Option String) (n : Int) : List Char :=
  (if n < 0 then ['-'] else []) ++ insertGroupSep (localeGroupSep locale) (natDecChars n.natAbs)

/-- `n.toLocaleString(locale, { style: "percent", maximumFractionDigits })`
on an integer-valued number: one hundred times the value plus a percent sign. -/
def percentChars (locale : Option String) (n : Int) : List Char :=
  groupChars locale (n * 100) ++ ['%']

/-! ## `formatValue` (source lines 54-183) -/

/-- Source helper `IntOr(value, or)`: `parseInt` with a fallback for `NaN`;
the argument is `Option`al because `formatExec[2]` may be undefined. -/
def IntOr (value : Option String) (or : Int) : Int :=
  match value with
  | none => or
  | some s => (jsParseInt s).getD or

/-- The letter class of `formatValueRegexp = /^([defgnpx])(\d\d?)?$/i`: the
`i` flag makes the class match both cases of the seven letters. -/
def isFVLetter (c : Char) : Bool :=
  c ∈ ['d', 'D', 'e', 'E', 'f', 'F', 'g', 'G', 'n', 'N', 'p', 'P', 'x', 'X']

/-- `formatValueRegexp.exec(formatString)`: the whole string must be one
specifier letter optionally followed by one or two decimal digits; returns
the letter capture and the digit capture. -/
def formatValueRegexpExec (fs : String) : Option (Char × Option String) :=
  match fs.data with
  | [] => none
  | c :: rest =>
      if isFVLetter c then
        match rest with
        | [] => some (c, none)
        | [d1] => if isDigitChar d1 then some (c, some (String.mk [d1])) else none
        | [d1, d2] =>
            if isDigitChar d1 && isDigitChar d2 then some (c, some (String.mk [d1, d2]))
            else none
        | _ => none
      else none

/-- `formatValue(value, formatString, locale?)` (source lines 78-183). -/
def formatValue (value : Value) (formatString : String) (locale : Option String) :
    Except FmtError String :=
  match value with
  | .num n =>
      if formatString = "" then .ok (String.mk (intChars n))
      else
        match formatValueRegexpExec formatString with
        | none => .error (.invalidFormat formatString)
        | some (c, prec) =>
            match c with
            | 'd' | 'D' =>
                .ok ((if n < 0 then "-" else "") ++
                  padStartWith '0' (IntOr prec 0).toNat (String.mk (natDecChars n.natAbs)))
            | 'e' | 'E' =>
                .ok (UppercaseIf (toExponentialInt (IntOr prec 6).toNat n) (c == 'E') locale)
            | 'f' | 'F' =>
                .ok (String.mk (fixedChars locale (IntOr prec 2).toNat n))
            | 'g' | 'G' =>
                if IntOr prec 15 < 1 ∨ 100 < IntOr prec 15 then .error .rangeError
                else .ok (UppercaseIf (toPrecisionInt (IntOr prec 15).toNat n) (c == 'G') locale)
            | 'n' | 'N' =>
                .ok (UppercaseIf (String.mk (groupChars locale n)) (c == 'N') locale)
            | 'p' | 'P' =>
                .ok (UppercaseIf (String.mk (percentChars locale n)) (c == 'P') locale)
            | 'x' | 'X' =>
                .ok ((if n < 0 then "-" else "") ++
                  padStartWith '0' (IntOr prec 0).toNat
                    (UppercaseIf (String.mk (natHexChars n.natAbs)) (c == 'X') locale))
            | _ => .error .internalError
  | v =>
      if formatString = "" then .ok (jsToString v)
      else .error (.invalidFormat formatString)

/-! ## The placeholder regex scanner
(`input.replace(formatPlaceholder, …)` with the global regex
`/\$\{([^,:}]+?)(?:,([^,:}]*?))?(?::([^}]*?))?\}/g`). Because every
character class excludes its follow-set delimiters, backtracking collapses
to the deterministic longest-run parse implemented here. -/

/-- The `[^,:}]` class (key and alignment captures). -/
def isKeyChar (c : Char) : Bool := !(c == ',' || c == ':' || c == '}')

/-- Parse `([^}]*?)\}`: the format capture and the text after the brace. -/
def takeFmtSpan (l : List Char) : Option (String × List Char) :=
  let r := l.takeWhile (fun c => c != '}')
  match l.dropWhile (fun c => c != '}') with
  | '}' :: t => some (String.mk r, t)
  | _ => none

/-- Attempt the regex body on the text following a `${`; on success returns
the captures and the text after the closing brace. -/
def tryMatch (l : List Char) : Option (Placeholder × List Char) :=
  let k := l.takeWhile isKeyChar
  if k = [] then none
  else
    match l.dropWhile isKeyChar with
    | '}' :: t => some (⟨String.mk k, none, none⟩, t)
    | ':' :: t => (takeFmtSpan t).map (fun p => (⟨String.mk k, none, some p.1⟩, p.2))
    | ',' :: t =>
        let a := t.takeWhile isKeyChar
        match t.dropWhile isKeyChar with
        | '}' :: t2 => some (⟨String.mk k, some (String.mk a), none⟩, t2)
        | ':' :: t2 =>
            (takeFmtSpan t2).map (fun p => (⟨String.mk k, some (String.mk a), some p.1⟩, p.2))
        | _ => none
    | _ => none

/-- Attempt a placeholder match at the head of the text: a match can only
start at `${`.  A failed attempt makes the scan advance one character. -/
def scanHead (l : List Char) : Option (Placeholder × List Char) :=
  match l with
  | '$' :: '{' :: rest => tryMatch rest
  | _ => none

/-- One `String.replace` pass: scan left to right, splice each match's
rendered text, copy all other characters (including failed candidate spans)
verbatim.  Fuelled structural recursion: every step consumes at least one
character, so fuel equal to the input length is always sufficient; exhausted
fuel copies the remainder verbatim. -/
def runScanF (render : Placeholder → Except FmtError String) :
    Nat → List Char → Except FmtError (List Char)
  | 0, l => .ok l
  | _+1, [] => .ok []
  | fuel+1, c :: rest =>
      match scanHead (c :: rest) with
      | some (tok, rest3) =>
          (render tok).bind fun s =>
            (runScanF render fuel rest3).map fun tail => s.data ++ tail
      | none => (runScanF render fuel rest).map fun tail => c :: tail

/-- The ordered list of placeholder matches the same scan would produce. -/
def parseAux : Nat → List Char → List Placeholder
  | 0, _ => []
  | _+1, [] => []
  | fuel+1, c :: rest =>
      match scanHead (c :: rest) with
      | some (tok, rest3) => tok :: parseAux fuel rest3
      | none => parseAux fuel rest

/-- All placeholder tokens matched in a template, in order. -/
def parsePlaceholders (s : String) : List Placeholder := parseAux s.data.length s.data

/-! ## `format` (source lines 245-288) -/

/-- `Object.prototype.hasOwnProperty.call(sub, key)` on the mapping model. -/
def hasOwn (m : List (String × Value)) (key : String) : Bool :=
  (m.find? (fun e => e.1 == key)).isSome

/-- The mapping-shaped `matchFn`: own-property check, then `formatValue`
on the stored value (the returned string is an opaque `unknown` upstream). -/
def matchFnMapping (m : List (String × Value)) (locale : Option String)
    (key : String) (formatString : Option String) : Except FmtError Value :=
  match m.find? (fun e => e.1 == key) with
  | none => .error (.keyMissing key)
  | some e => (formatValue e.2 (formatString.getD "") locale).map .str

/-- The alignment step of the replace callback: a truthy (non-empty)
alignment capture is `parseInt`-ed; `NaN` throws; negative pads the end,
otherwise `padStart` (fill defaults to the space character). -/
def applyAlignment (output : String) (alignmentString : Option String) :
    Except FmtError String :=
  match alignmentString with
  | none => .ok output
  | some astr =>
      if astr = "" then .ok output
      else
        match jsParseInt astr with
        | none => .error (.invalidAlignment astr)
        | some a =>
            .ok (if a < 0 then padEndWith ' ' (-a).toNat output
                 else padStartWith ' ' a.toNat output)

/-- The replace callback: resolve the key, stringify (`"" + result`), then
apply alignment. -/
def formatReplacer (matchFn : String → Option String → Except FmtError Value)
    (ph : Placeholder) : Except FmtError String :=
  (matchFn ph.key ph.fmt).bind fun result =>
    applyAlignment (jsToString result) ph.align

/-- Body of `format` once the `matchFn` for the substitution source is
fixed. -/
def formatWith (matchFn : String → Option String → Except FmtError Value)
    (input : String) : Except FmtError String :=
  (runScanF (formatReplacer matchFn) input.data.length input.data).map String.mk

/-- `format(input, sub, locale?)`, both overloads: an object substitution
source resolves through `hasOwnProperty` + `formatValue`; a callback source
is invoked with `(key, formatString)` and its result used as-is. -/
def format (input : String) (sub : Sub) (locale : Option String) :
    Except FmtError String :=
  match sub with
  | .mapping m => formatWith (matchFnMapping m locale) input
  | .fn f => formatWith (fun k fs => .ok (f k fs)) input

/-! ## Spec-side definitions (for refinement-style claims) -/

/-- Written to the spec's words (section 4.3 / claim C3): a valid non-empty
numeric specifier is one letter from `{d,D,e,E,f,F,g,G,n,N,p,P,x,X}`
optionally followed by one or two decimal digits. -/
def specNumericSpecifier (fs : String) : Bool :=
  match fs.data with
  | [] => false
  | c :: rest => isFVLetter c && decide (rest.length ≤ 2) && rest.all isDigitChar

/-- Whether a value takes the `number` branch of the `typeof` switch. -/
def isNumericValue : Value → Bool
  | .num _ => true
  | _ => false

instance {ε α : Type} [DecidableEq ε] [DecidableEq α] : DecidableEq (Except ε α) := fun x y =>
  match x, y with
  | .ok a, .ok b =>
      if h : a = b then .isTrue (by rw [h]) else .isFalse (fun hc => by cases hc; exact h rfl)
  | .error a, .error b =>
      if h : a = b then .isTrue (by rw [h]) else .isFalse (fun hc => by cases hc; exact h rfl)
  | .ok _, .error _ => .isFalse (fun hc => by cases hc)
  | .error _, .ok _ => .isFalse (fun hc => by cases hc)

/-! ## Helper lemmas -/

theorem mk_data (s : String) : String.mk s.data = s := rfl

theorem mk_append (a b : List Char) : String.mk (a ++ b) = String.mk a ++ String.mk b := rfl

/-- An empty format string renders any value by plain JS `ToString`. -/
theorem formatValue_empty (v : Value) (locale : Option String) :
    formatValue v "" locale = .ok (jsToString v) := by
  cases v <;> rfl

/-- `formatValue` never raises the missing-key error. -/
theorem formatValue_ne_keyMissing (v : Value) (fs : String) (locale : Option String)
    (k : String) : formatValue v fs locale ≠ .error (.keyMissing k) := by
  intro h
  cases v <;> unfold formatValue at h <;> (repeat' split at h) <;> simp_all

/-- The regex `^([defgnpx])(\d\d?)?$/i` accepts exactly the specifier shape
the spec describes: one letter of the fourteen-letter class followed by at
most two decimal digits. -/
theorem exec_isSome_eq_spec (fs : String) :
    (formatValueRegexpExec fs).isSome = specNumericSpecifier fs := by
  unfold formatValueRegexpExec specNumericSpecifier
  match fs.data with
  | [] => rfl
  | c :: rest =>
      by_cases hl : isFVLetter c
      · simp only [hl, if_pos, Bool.true_and]
        match rest with
        | [] => simp
        | [d1] => by_cases hd : isDigitChar d1 <;> simp [hd]
        | [d1, d2] =>
            by_cases h1 : isDigitChar d1 <;> by_cases h2 : isDigitChar d2 <;>
              simp [h1, h2]
        | d1 :: d2 :: d3 :: t => simp
      · simp [hl]

/-- A text in which the scan finds no placeholder match is copied through
unchanged. -/
theorem runScanF_of_parseAux_nil (render : Placeholder → Except FmtError String) :
    ∀ fuel l, parseAux fuel l = [] → runScanF render fuel l = .ok l := by
  intro fuel
  induction fuel with
  | zero => intro l _; rfl
  | succ fuel ih =>
      intro l h
      match l with
      | [] => rfl
      | c :: rest =>
          cases hsh : scanHead (c :: rest) with
          | some p =>
              obtain ⟨tok0, rest3⟩ := p
              simp only [parseAux, hsh] at h
              exact (List.cons_ne_nil _ _ h).elim
          | none =>
              simp only [parseAux, hsh] at h
              simp only [runScanF, hsh, ih rest h]
              rfl

/-- If a scan succeeds, every placeholder it matched rendered successfully. -/
theorem runScanF_ok_renders (render : Placeholder → Except FmtError String) :
    ∀ fuel l out, runScanF render fuel l = .ok out →
      ∀ tok ∈ parseAux fuel l, ∃ o, render tok = .ok o := by
  intro fuel
  induction fuel with
  | zero => intro l out _ tok htok; simp [parseAux] at htok
  | succ fuel ih =>
      intro l out hok tok htok
      match l with
      | [] => simp [parseAux] at htok
      | c :: rest =>
          cases hsh : scanHead (c :: rest) with
          | some p =>
              obtain ⟨tok0, rest3⟩ := p
              simp only [runScanF, hsh] at hok
              simp only [parseAux, hsh] at htok
              cases hr : render tok0 with
              | error e => rw [hr] at hok; simp [Except.bind] at hok
              | ok s =>
                  rw [hr] at hok
                  simp only [Except.bind] at hok
                  cases hrs : runScanF render fuel rest3 with
                  | error e => rw [hrs] at hok; simp [Except.map] at hok
                  | ok tail =>
                      simp only [List.mem_cons] at htok
                      rcases htok with h1 | h2
                      · exact ⟨s, h1 ▸ hr⟩
                      · exact ih rest3 tail hrs tok h2
          | none =>
              simp only [runScanF, hsh] at hok
              simp only [parseAux, hsh] at htok
              cases hrs : runScanF render fuel rest with
              | error e => rw [hrs] at hok; simp [Except.map] at hok
              | ok tail => exact ih rest tail hrs tok htok

/-! Characters of the non-locale numeric renderings never include the
dotted `i`, the only character whose uppercase mapping is locale-sensitive
on this repertoire; hence those renderings uppercase identically in every
locale. -/

theorem digitChar_ne_i (d : Nat) : digitChar d ≠ 'i' := by
  unfold digitChar; split <;> decide

theorem baseChars_mem (b : Nat) :
    ∀ fuel n acc c, c ∈ baseChars b fuel n acc → c ∈ acc ∨ ∃ d, c = digitChar d := by
  intro fuel
  induction fuel with
  | zero => intro n acc c h; exact .inl h
  | succ fuel ih =>
      intro n acc c h
      simp only [baseChars] at h
      split at h
      · rcases List.mem_cons.mp h with h1 | h1
        · exact .inr ⟨n, h1⟩
        · exact .inl h1
      · rcases ih _ _ _ h with h1 | h1
        · rcases List.mem_cons.mp h1 with h2 | h2
          · exact .inr ⟨n % b, h2⟩
          · exact .inl h2
        · exact .inr h1

theorem natDecChars_ne_i (n : Nat) : 'i' ∉ natDecChars n := by
  intro h
  rcases baseChars_mem 10 _ _ _ _ h with h1 | ⟨d, hd⟩
  · simp at h1
  · exact digitChar_ne_i d hd.symm

theorem natHexChars_ne_i (n : Nat) : 'i' ∉ natHexChars n := by
  intro h
  rcases baseChars_mem 16 _ _ _ _ h with h1 | ⟨d, hd⟩
  · simp at h1
  · exact digitChar_ne_i d hd.symm

theorem sciChars_no_i (digs : List Char) (f : Nat) (e : Int)
    (h : 'i' ∉ digs) : 'i' ∉ sciChars digs f e := by
  intro hc
  simp only [sciChars, List.mem_append, List.mem_cons] at hc
  rcases hc with (h1 | h2) | h3 | h4
  · exact h (List.take_subset _ _ h1)
  · split at h2
    · simp at h2
    · rcases List.mem_cons.mp h2 with h5 | h5
      · simp at h5
      · exact h (List.drop_subset _ _ h5)
  · simp at h3
  · rcases h4 with h5 | h5
    · split at h5 <;> simp at h5
    · exact natDecChars_ne_i _ h5

theorem roundSig_no_i (m s : Nat) : 'i' ∉ (roundSig m s).1 := by
  simp only [roundSig]
  split <;> split <;> exact natDecChars_ne_i _

theorem expBody_no_i (f m : Nat) : 'i' ∉ expBody f m := by
  unfold expBody
  split
  · exact sciChars_no_i _ _ _ (by intro h; have := List.eq_of_mem_replicate h; simp at this)
  · split
    · refine sciChars_no_i _ _ _ ?_
      intro h
      rcases List.mem_append.mp h with h1 | h1
      · exact natDecChars_ne_i _ h1
      · have := List.eq_of_mem_replicate h1; simp at this
    · exact sciChars_no_i _ _ _ (roundSig_no_i _ _)

theorem expChars_no_i (f : Nat) (n : Int) : 'i' ∉ expChars f n := by
  intro h
  rcases List.mem_append.mp h with h1 | h1
  · split at h1 <;> simp at h1
  · exact expBody_no_i _ _ h1

theorem precBody_no_i (p m : Nat) : 'i' ∉ precBody p m := by
  unfold precBody
  split
  · intro h
    rcases List.mem_cons.mp h with h1 | h1
    · simp at h1
    · split at h1
      · simp at h1
      · rcases List.mem_cons.mp h1 with h2 | h2
        · simp at h2
        · have := List.eq_of_mem_replicate h2; simp at this
  · split
    · intro h
      rcases List.mem_append.mp h with h1 | h1
      · exact natDecChars_ne_i _ h1
      · split at h1
        · simp at h1
        · rcases List.mem_cons.mp h1 with h2 | h2
          · simp at h2
          · have := List.eq_of_mem_replicate h2; simp at this
    · exact sciChars_no_i _ _ _ (roundSig_no_i _ _)

theorem precChars_no_i (p : Nat) (n : Int) : 'i' ∉ precChars p n := by
  intro h
  rcases List.mem_append.mp h with h1 | h1
  · split at h1 <;> simp at h1
  · exact precBody_no_i _ _ h1

/-- Locale-sensitive uppercasing agrees across all locales on strings with
no dotted `i`. -/
theorem toLocaleUpper_indep (l1 l2 : Option String) (s : String)
    (h : 'i' ∉ s.data) : toLocaleUpper l1 s = toLocaleUpper l2 s := by
  unfold toLocaleUpper
  congr 1
  apply List.map_congr_left
  intro c hc
  have hne : (c == 'i') = false := by
    refine beq_false_of_ne ?_
    rintro rfl
    exact h hc
  simp [localeUpperChar, hne]

/-- String length distributes over append. -/
theorem strLength_append (a b : String) : (a ++ b).length = a.length + b.length := by
  cases a with
  | mk da =>
      cases b with
      | mk db => simp [String.length, String.append]

/-- Lookup of a key that is not an own property raises the missing-key
error carrying that key. -/
theorem matchFnMapping_absent (m : List (String × Value)) (locale : Option String)
    (key : String) (fmtS : Option String) (h : hasOwn m key = false) :
    matchFnMapping m locale key fmtS = .error (.keyMissing key) := by
  unfold hasOwn at h
  cases hf : m.find? (fun e => e.1 == key) with
  | some e => rw [hf] at h; simp at h
  | none => simp only [matchFnMapping, hf]

/-- A template in which the regex finds no match formats to itself, for any
substitution source. -/
theorem format_no_match_id (input : String) (sub : Sub) (locale : Option String)
    (hp : parsePlaceholders input = []) : format input sub locale = .ok input := by
  cases sub with
  | mapping m =>
      simp only [format, formatWith]
      rw [runScanF_of_parseAux_nil _ _ _ hp]
      rfl
  | fn f =>
      simp only [format, formatWith]
      rw [runScanF_of_parseAux_nil _ _ _ hp]
      rfl

/-! ## Claims -/

/-- Claim C2: for a placeholder whose alignment text parses to the integer
`a` and whose rendered text is `s`: when `s` is at least `abs a` long it is
returned unpadded; when shorter, positive `a` left-pads and negative `a`
right-pads with spaces to exactly `abs a` characters; alignment `0` or an
absent alignment field applies no padding.  The final conjunct ties the
alignment step to the replace callback. -/
theorem c2_alignment_padding (s astr : String) (a : Int)
    (hparse : jsParseInt astr = some a) (hne : astr ≠ "") :
    (a.natAbs ≤ s.length → applyAlignment s (some astr) = .ok s) ∧
    (s.length < a.natAbs → 0 < a →
        applyAlignment s (some astr) =
          .ok (String.mk (List.replicate (a.natAbs - s.length) ' ') ++ s) ∧
        (String.mk (List.replicate (a.natAbs - s.length) ' ') ++ s).length = a.natAbs) ∧
    (s.length < a.natAbs → a < 0 →
        applyAlignment s (some astr) =
          .ok (s ++ String.mk (List.replicate (a.natAbs - s.length) ' ')) ∧
        (s ++ String.mk (List.replicate (a.natAbs - s.length) ' ')).length = a.natAbs) ∧
    (a = 0 → applyAlignment s (some astr) = .ok s) ∧
    (applyAlignment s none = .ok s) ∧
    (∀ (matchFn : String → Option String → Except FmtError Value)
        (ph : Placeholder) (v : Value), matchFn ph.key ph.fmt = .ok v →
          formatReplacer matchFn ph = applyAlignment (jsToString v) ph.align) := by
  have hsl : s.length = s.data.length := rfl
  have h1 : applyAlignment s (some astr) =
      .ok (if a < 0 then padEndWith ' ' (-a).toNat s else padStartWith ' ' a.toNat s) := by
    simp only [applyAlignment, if_neg hne, hparse]
  refine ⟨?_, ?_, ?_, ?_, rfl, ?_⟩
  · intro hlen
    rw [h1]
    by_cases hneg : a < 0
    · rw [if_pos hneg]
      unfold padEndWith
      rw [if_pos (by omega)]
    · rw [if_neg hneg]
      unfold padStartWith
      rw [if_pos (by omega)]
  · intro hlen hpos
    have hta : a.toNat = a.natAbs := by omega
    constructor
    · rw [h1, if_neg (by omega)]
      unfold padStartWith
      rw [if_neg (by omega), hta]
    · rw [strLength_append]
      simp only [String.length, List.length_replicate]
      omega
  · intro hlen hneg
    have hta : (-a).toNat = a.natAbs := by omega
    constructor
    · rw [h1, if_pos hneg]
      unfold padEndWith
      rw [if_neg (by omega), hta]
    · rw [strLength_append]
      simp only [String.length, List.length_replicate]
      omega
  · rintro rfl
    rw [h1]
    norm_num
    unfold padStartWith
    rw [if_pos (Nat.zero_le _)]
  · intro matchFn ph v hres
    unfold formatReplacer
    rw [hres]
    rfl

/-- Claim C2 witness: alignment 5 on the two-character string pads to five
characters on the left. -/
theorem c2_alignment_witness : applyAlignment "ab" (some "5") = .ok "   ab" :=
  ((c2_alignment_padding "ab" "5" 5 (by decide) (by decide)).2.1 (by decide) (by decide)).1

/-- Claim C3: on a numeric value a non-empty specifier succeeds only when it
is one letter of `{d,D,e,E,f,F,g,G,n,N,p,P,x,X}` followed by at most two
decimal digits; any other non-empty specifier fails with `InvalidFormatError`
carrying the raw text, and a non-empty specifier on a non-numeric value also
fails with `InvalidFormatError` carrying the raw text. -/
theorem c3_specifier_grammar (n : Int) (fs : String) (locale : Option String)
    (hfs : fs ≠ "") :
    (specNumericSpecifier fs = false →
        formatValue (.num n) fs locale = .error (.invalidFormat fs)) ∧
    (∀ s, formatValue (.num n) fs locale = .ok s → specNumericSpecifier fs = true) ∧
    (∀ v, isNumericValue v = false →
        formatValue v fs locale = .error (.invalidFormat fs)) := by
  have herr : specNumericSpecifier fs = false →
      formatValue (.num n) fs locale = .error (.invalidFormat fs) := by
    intro hspec
    cases hex : formatValueRegexpExec fs with
    | some p =>
        have h := exec_isSome_eq_spec fs
        rw [hex, hspec] at h
        simp at h
    | none => simp only [formatValue, if_neg hfs, hex]
  refine ⟨herr, ?_, ?_⟩
  · intro s hok
    cases hspec : specNumericSpecifier fs with
    | true => rfl
    | false => rw [herr hspec] at hok; exact Except.noConfusion hok
  · intro v hv
    cases v with
    | num m => simp [isNumericValue] at hv
    | str s => simp only [formatValue, if_neg hfs]
    | null => simp only [formatValue, if_neg hfs]
    | undef => simp only [formatValue, if_neg hfs]

/-- Claim C3 witness: the specifier `"q"` is rejected on the number 7 with
the invalid-format error carrying `"q"`. -/
theorem c3_specifier_witness :
    formatValue (.num 7) "q" none = .error (.invalidFormat "q") :=
  (c3_specifier_grammar 7 "q" none (by decide)).1 (by decide)

/-- Claim C4: `formatValue(1234, "d6")` is `"001234"`, `formatValue(-1234,
"x")` is `"-4d2"`, and an empty format string renders any number as its
plain decimal string (sign and decimal digits, no padding or grouping). -/
theorem c4_numeric_roundtrips :
    formatValue (.num 1234) "d6" none = .ok "001234" ∧
    formatValue (.num (-1234)) "x" none = .ok "-4d2" ∧
    ∀ (n : Int) (locale : Option String),
      formatValue (.num n) "" locale = .ok (String.mk (intChars n)) := by
  refine ⟨by decide, by decide, fun n locale => rfl⟩

/-- Claim C5 (code observation): with a callback substitution source the
implementation never checks the callback's result, so a callback answering
`undefined` renders the text `"undefined"` instead of raising the
missing-key error its own documentation promises. -/
theorem c5_callback_no_missing_key_error :
    format "Hello $\x7bkey\x7d!" (.fn (fun _ _ => .undef)) none = .ok "Hello undefined!" ∧
    ∀ k, format "Hello $\x7bkey\x7d!" (.fn (fun _ _ => .undef)) none ≠
      .error (.keyMissing k) := by
  have h1 : format "Hello $\x7bkey\x7d!" (.fn (fun _ _ => .undef)) none =
      .ok "Hello undefined!" := by decide
  refine ⟨h1, fun k h => ?_⟩
  rw [h1] at h
  exact Except.noConfusion h

/-- Claim C7: a present alignment capture that `parseInt` cannot read fails
with `InvalidAlignmentError` carrying exactly the raw alignment text, once
the key has resolved; concretely, formatting a bound key with alignment text
`abc` fails carrying `"abc"`. -/
theorem c7_invalid_alignment :
    (∀ (matchFn : String → Option String → Except FmtError Value)
        (ph : Placeholder) (v : Value) (astr : String),
        matchFn ph.key ph.fmt = .ok v → ph.align = some astr → astr ≠ "" →
        jsParseInt astr = none →
        formatReplacer matchFn ph = .error (.invalidAlignment astr)) ∧
    format "$\x7bkey,abc\x7d" (.mapping [("key", .str "v")]) none =
      .error (.invalidAlignment "abc") := by
  constructor
  · intro matchFn ph v astr hres halign hne hnan
    unfold formatReplacer
    rw [hres]
    show applyAlignment (jsToString v) ph.align = _
    rw [halign]
    simp only [applyAlignment, if_neg hne, hnan]
  · decide

/-- Claim C10: an empty alignment capture (forms `${key,}` and
`${key,:format}`) is skipped before integer parsing: no padding is applied
and no `InvalidAlignmentError` is raised, exactly as if the alignment field
were absent. -/
theorem c10_empty_alignment :
    (∀ s : String, applyAlignment s (some "") = .ok s) ∧
    (∀ s : String, applyAlignment s (some "") = applyAlignment s none) ∧
    format "$\x7bkey,\x7d" (.mapping [("key", .str "abc")]) none = .ok "abc" ∧
    format "$\x7bkey,:d3\x7d" (.mapping [("key", .num 5)]) none = .ok "005" := by
  exact ⟨fun s => rfl, fun s => rfl, by decide, by decide⟩

/-- Claim C1: a placeholder key that is not an own property of the mapping
resolves to the missing-key error carrying exactly that key (so an
inherited-member name such as a key literally spelled like the built-in
stringifier is still absent), a present key never yields the missing-key
error even when its value is null-like, and a template referencing an
absent key never formats successfully (no partial output). -/
theorem c1_missing_key :
    (∀ (m : List (String × Value)) (locale : Option String) (key : String)
        (fmtS : Option String), hasOwn m key = false →
        matchFnMapping m locale key fmtS = .error (.keyMissing key)) ∧
    (∀ (m : List (String × Value)) (locale : Option String) (key : String)
        (fmtS : Option String) (k : String), hasOwn m key = true →
        matchFnMapping m locale key fmtS ≠ .error (.keyMissing k)) ∧
    (∀ (input : String) (m : List (String × Value)) (locale : Option String)
        (k : String), k ∈ (parsePlaceholders input).map Placeholder.key →
        hasOwn m k = false →
        ∀ s, format input (.mapping m) locale ≠ .ok s) ∧
    format "Hello $\x7btoString\x7d." (.mapping [("a", .str "a")]) none =
      .error (.keyMissing "toString") ∧
    format "$\x7bk\x7d" (.mapping [("k", .undef)]) none = .ok "undefined" := by
  refine ⟨matchFnMapping_absent, ?_, ?_, by decide, by decide⟩
  · intro m locale key fmtS k h heq
    unfold hasOwn at h
    cases hf : m.find? (fun e => e.1 == key) with
    | none => rw [hf] at h; simp at h
    | some e =>
        simp only [matchFnMapping, hf] at heq
        cases hfv : formatValue e.2 (fmtS.getD "") locale with
        | ok s => rw [hfv] at heq; simp [Except.map] at heq
        | error er =>
            rw [hfv] at heq
            simp only [Except.map] at heq
            injection heq with h2
            rw [h2] at hfv
            exact formatValue_ne_keyMissing e.2 _ locale k hfv
  · intro input m locale k hk hown s hok
    simp only [format, formatWith] at hok
    cases hrs : runScanF (formatReplacer (matchFnMapping m locale))
        input.data.length input.data with
    | error e => rw [hrs] at hok; simp [Except.map] at hok
    | ok out =>
        rcases List.mem_map.mp hk with ⟨tok, htok, hkey⟩
        obtain ⟨o, ho⟩ := runScanF_ok_renders _ _ _ _ hrs tok htok
        have hm : matchFnMapping m locale tok.key tok.fmt =
            .error (.keyMissing tok.key) :=
          matchFnMapping_absent m locale tok.key tok.fmt (by rw [hkey]; exact hown)
        unfold formatReplacer at ho
        rw [hm] at ho
        simp [Except.bind] at ho

/-- Claim C6: for every specifier whose letter is one of `d`, `D`, `e`,
`E`, `g`, `G`, `x`, `X`, the rendered string is identical for any two
locale arguments (including an omitted locale): those letters render
locale-independently. -/
theorem c6_locale_independent (n : Int) (fs : String) (c : Char) (pr : Option String)
    (l1 l2 : Option String)
    (hexec : formatValueRegexpExec fs = some (c, pr))
    (hc : c = 'd' ∨ c = 'D' ∨ c = 'e' ∨ c = 'E' ∨
          c = 'g' ∨ c = 'G' ∨ c = 'x' ∨ c = 'X') :
    formatValue (.num n) fs l1 = formatValue (.num n) fs l2 := by
  by_cases hfs : fs = ""
  · subst hfs; rfl
  · simp only [formatValue, if_neg hfs, hexec]
    rcases hc with rfl | rfl | rfl | rfl | rfl | rfl | rfl | rfl
    · rfl
    · rfl
    · rfl
    · show Except.ok (toLocaleUpper l1 (toExponentialInt (IntOr pr 6).toNat n)) =
        Except.ok (toLocaleUpper l2 (toExponentialInt (IntOr pr 6).toNat n))
      rw [toLocaleUpper_indep l1 l2 (toExponentialInt (IntOr pr 6).toNat n)
        (expChars_no_i (IntOr pr 6).toNat n)]
    · rfl
    · show (if IntOr pr 15 < 1 ∨ 100 < IntOr pr 15 then
          (Except.error FmtError.rangeError : Except FmtError String)
        else Except.ok (toLocaleUpper l1 (toPrecisionInt (IntOr pr 15).toNat n))) =
        (if IntOr pr 15 < 1 ∨ 100 < IntOr pr 15 then Except.error FmtError.rangeError
        else Except.ok (toLocaleUpper l2 (toPrecisionInt (IntOr pr 15).toNat n)))
      by_cases hrg : IntOr pr 15 < 1 ∨ 100 < IntOr pr 15
      · rw [if_pos hrg, if_pos hrg]
      · rw [if_neg hrg, if_neg hrg,
          toLocaleUpper_indep l1 l2 (toPrecisionInt (IntOr pr 15).toNat n)
            (precChars_no_i (IntOr pr 15).toNat n)]
    · rfl
    · show Except.ok ((if n < 0 then "-" else "") ++
          padStartWith '0' (IntOr pr 0).toNat
            (toLocaleUpper l1 (String.mk (natHexChars n.natAbs)))) =
        Except.ok ((if n < 0 then "-" else "") ++
          padStartWith '0' (IntOr pr 0).toNat
            (toLocaleUpper l2 (String.mk (natHexChars n.natAbs))))
      rw [toLocaleUpper_indep l1 l2 (String.mk (natHexChars n.natAbs))
        (natHexChars_ne_i n.natAbs)]

/-- Claim C6 witness: uppercase hexadecimal of -255 with two-digit padding
renders identically under the Turkish locale and the omitted locale. -/
theorem c6_locale_witness :
    formatValue (.num (-255)) "X2" (some "tr") = formatValue (.num (-255)) "X2" none :=
  c6_locale_independent (-255) "X2" 'X' (some "2") (some "tr") none (by decide)
    (by decide)

/-- Claim C8: malformed placeholder spans (unclosed `${`, or empty key text
before a separator or closing brace) are not matched and are copied through
verbatim, and non-placeholder text around a real placeholder is preserved
verbatim. -/
theorem c8_malformed_literal :
    (∀ (input : String) (sub : Sub) (locale : Option String),
        parsePlaceholders input = [] → format input sub locale = .ok input) ∧
    parsePlaceholders "$\x7b\x7d" = [] ∧
    parsePlaceholders "$\x7b,5\x7d" = [] ∧
    parsePlaceholders "$\x7b:d\x7d" = [] ∧
    parsePlaceholders "ab$\x7bcd" = [] ∧
    (∀ (sub : Sub) (locale : Option String),
        format "x$\x7b,5\x7dy$\x7b\x7d$\x7b:d\x7dz$\x7bw" sub locale =
          .ok "x$\x7b,5\x7dy$\x7b\x7d$\x7b:d\x7dz$\x7bw") ∧
    format "A$\x7bk\x7dB" (.mapping [("k", .str "Z")]) none = .ok "AZB" ∧
    format "A$\x7bk\x7dB" (.mapping [("k", .num 42)]) none = .ok "A42B" := by
  refine ⟨format_no_match_id, by decide, by decide, by decide, by decide,
    ?_, by decide, by decide⟩
  intro sub locale
  exact format_no_match_id _ sub locale (by decide)

/-- Claim C9 as stated is false: the value bound to `k` is the one-character
string `$`, which contains no `${`, and formatting succeeds; yet the output
splices that `$` against the literal `{a}` that follows the placeholder,
producing `${a}`, and formatting the output again with a substitution
source fails instead of returning it unchanged. -/
theorem c9_idempotence_counterexample :
    format "$\x7bk\x7d\x7ba\x7d" (.mapping [("k", .str "$")]) none = .ok "$\x7ba\x7d" ∧
    format "$\x7ba\x7d" (.mapping [("k", .str "$")]) none = .error (.keyMissing "a") ∧
    format "$\x7ba\x7d" (.mapping [("k", .str "$")]) none ≠ .ok "$\x7ba\x7d" := by
  exact ⟨by decide, by decide, by decide⟩

/-- Claim C9 (amended): when the output of a successful format call itself
contains no placeholder match, formatting it again with any substitution
source returns it unchanged; in particular a template with no placeholder
match formats to itself. -/
theorem c9_idempotence_amended :
    (∀ (input : String) (sub : Sub) (locale : Option String) (out : String)
        (sub2 : Sub) (locale2 : Option String),
        format input sub locale = .ok out → parsePlaceholders out = [] →
        format out sub2 locale2 = .ok out) ∧
    (∀ (input : String) (sub : Sub) (locale : Option String),
        parsePlaceholders input = [] → format input sub locale = .ok input) := by
  exact ⟨fun _ sub _ out sub2 locale2 _ hp => format_no_match_id out sub2 locale2 hp,
    format_no_match_id⟩

end StringUtilities
